import Mathlib

/-!
Verification of the XLSX codec in `backend/app/utils/xlsx.py`.

The Python module is embedded shallowly: Python strings are modelled as
`List Char`, XML elements as structures holding exactly the attributes and
child text nodes the code reads, zip archives as association lists from
member name to member bytes, and Python exceptions as `Except`/`Option`
results.  Each definition mirrors one Python function of the source and
keeps its name.
-/

namespace Xlsx

/-- Python strings are modelled as lists of characters. -/
abbrev Str := List Char

/-- ASCII fragment of Python's default whitespace set used by `str.strip()`
and by `int()`'s argument stripping: space and the control characters
TAB, LF, VT, FF, CR (code points 9..13 and 32). -/
def py_isspace (c : Char) : Bool :=
  c.toNat = 32 || (9 ≤ c.toNat && c.toNat ≤ 13)

/-- ASCII fragment of Python's `str.isalpha` test applied per character:
a letter is a code point in A..Z (65..90) or a..z (97..122). -/
def py_isalpha (c : Char) : Bool :=
  (65 ≤ c.toNat && c.toNat ≤ 90) || (97 ≤ c.toNat && c.toNat ≤ 122)

/-- ASCII fragment of Python's `str.upper` applied per character:
a..z is mapped to A..Z, everything else is unchanged. -/
def py_upper (c : Char) : Char :=
  if 97 ≤ c.toNat ∧ c.toNat ≤ 122 then Char.ofNat (c.toNat - 32) else c

/-- Python `str.strip()`: remove leading and trailing whitespace. -/
def py_strip (s : Str) : Str :=
  ((s.dropWhile py_isspace).reverse.dropWhile py_isspace).reverse

/-- Value of a run of ASCII decimal digits, most significant first,
allowing the single separating underscores Python's integer literal
grammar accepts between digits (`1_000`).  `none` when the run is empty,
has a non-digit, or misuses an underscore. -/
def py_digitpart_go (acc : Nat) : Str → Option Nat
  | [] => some acc
  | '_' :: d :: rest =>
      if d.isDigit then py_digitpart_go (acc * 10 + (d.toNat - 48)) rest else none
  | ['_'] => none
  | d :: rest =>
      if d.isDigit then py_digitpart_go (acc * 10 + (d.toNat - 48)) rest else none

/-- A nonempty digit run must start with a digit (no leading underscore). -/
def py_digitpart : Str → Option Nat
  | [] => none
  | d :: rest => if d.isDigit then py_digitpart_go (d.toNat - 48) rest else none

/-- Python's `int(str)` conversion (ASCII decimal fragment): strip
whitespace, accept one optional sign, then a digit run; anything else
raises `ValueError`, modelled as `none`. -/
def py_int_of_string (s : Str) : Option Int :=
  match py_strip s with
  | [] => none
  | c :: rest =>
    if c = '-' then (py_digitpart rest).map (fun n => -(n : Int))
    else if c = '+' then (py_digitpart rest).map (fun n => (n : Int))
    else (py_digitpart (c :: rest)).map (fun n => (n : Int))

/-- Python list subscription `l[i]` for `int` indices: nonnegative indices
count from the front, negative indices count from the back (`l[-1]` is the
last element); an index outside `[-len, len)` raises `IndexError`,
modelled as `none`. -/
def py_list_get (l : List Str) (i : Int) : Option Str :=
  if 0 ≤ i then l[i.toNat]?
  else if i.natAbs ≤ l.length then l[l.length - i.natAbs]? else none

/-- UTF-8 encoding of one code point (`str.encode("utf-8")`, per char). -/
def utf8_encode_char (c : Char) : List Nat :=
  let n := c.toNat
  if n < 128 then [n]
  else if n < 2048 then [192 + n / 64, 128 + n % 64]
  else if n < 65536 then [224 + n / 4096, 128 + n / 64 % 64, 128 + n % 64]
  else [240 + n / 262144, 128 + n / 4096 % 64, 128 + n / 64 % 64, 128 + n % 64]

/-- Python `str.encode("utf-8")`: the byte sequence of a string. -/
def utf8_encode (s : Str) : List Nat :=
  (s.map utf8_encode_char).flatten

/-- Python `xml.sax.saxutils.escape` applied per character: the sequential
whole-string replacements of `&`, `<`, `>` performed by the library are
equivalent to this single pass, since the replacement texts contain no
`<` or `>` and the `&` replacement runs first. -/
def xml_escape_char (c : Char) : Str :=
  if c = '&' then "&amp;".data
  else if c = '<' then "&lt;".data
  else if c = '>' then "&gt;".data
  else [c]

/-- Python `xml.sax.saxutils.escape` on a whole string. -/
def xml_escape (s : Str) : Str :=
  (s.map xml_escape_char).flatten

/-- Decimal rendering of a natural number, as used by Python f-strings
for the row numbers and the dimension reference. -/
def nat_repr (n : Nat) : Str :=
  (Nat.repr n).data

/-!
## Cell reference codec (`_column_letter`, `_column_index`)

`_column_letter`'s `while index > 0` loop is structurally recursive on a
fuel argument so that it reduces inside the kernel; the fuel equals the
initial index, which bounds the number of iterations since the index
strictly decreases (`(n + 1) / 26 ≤ n` fails only when the loop is about
to stop, and the fuel still suffices because `n / 26 ≤ n`).
-/

/-- The loop body of `_column_letter`: while `index > 0`, set
`index, remainder := divmod(index - 1, 26)` and prepend
`chr(65 + remainder)`.  The first argument is fuel. -/
def column_letter_go : Nat → Nat → List Char
  | _, 0 => []
  | 0, _ + 1 => []
  | fuel + 1, n + 1 => column_letter_go fuel (n / 26) ++ [Char.ofNat (65 + n % 26)]

/-- Source `_column_letter(index)`: bijective base-26 letters of a column index,
with `result or "A"` returning `"A"` for any input `<= 0`. -/
def _column_letter (index : Int) : Str :=
  let result := if 0 < index then column_letter_go index.toNat index.toNat else []
  if result = [] then ['A'] else result

/-- One iteration of `_column_index`'s loop: if `"A" <= char <= "Z"`
(code points 65..90, compared as Python compares one-character strings)
then `result = result * 26 + (ord(char) - ord("A") + 1)`, else skip. -/
def column_index_step (result : Int) (char : Char) : Int :=
  if 65 ≤ char.toNat ∧ char.toNat ≤ 90 then result * 26 + ((char.toNat : Int) - 65 + 1)
  else result

/-- Source `_column_index(letters)`: fold the loop body over `letters.upper()`
and clamp the result with `max(result, 1)`. -/
def _column_index (letters : Str) : Int :=
  max ((letters.map py_upper).foldl column_index_step 0) 1

/-!
## Worksheet XML model and the decode path

A worksheet cell element `<c>` is modelled by the data the reader
touches: its `r` and `t` attributes (`attrib.get`, so `Option`), the
first `<v>` child (`cell.find`; `some none` is a present `<v>` whose
`.text` is `None`), and the texts of all descendant `<t>` nodes in
document order (`cell.findall(".//t")`).  A row element `<r>` carries its
`r` attribute (which the reader never consults) and its `<c>` children.
-/

structure CellElem where
  rAttr : Option Str := none
  tAttr : Option Str := none
  vText : Option (Option Str) := none
  tTexts : List (Option Str) := []
deriving DecidableEq

structure RowElem where
  rowAttr : Option Str := none
  cells : List CellElem := []
deriving DecidableEq

/-- Source `_extract_cell_value(cell, shared_strings)`:
type `"s"` looks the parsed `<v>` text up in the shared-string list with
Python subscription semantics, recovering from `ValueError`/`IndexError`
as `""`; type `"inlineStr"` concatenates all descendant `<t>` texts
(`None` text read as `""`); any other or missing type takes the `<v>`
text with `.strip()` applied, or `""` when the node or its text is
missing. -/
def _extract_cell_value (cell : CellElem) (shared_strings : List Str) : Str :=
  if cell.tAttr = some ['s'] then
    match cell.vText with
    | none => []
    | some none => []
    | some (some txt) =>
      match py_int_of_string txt with
      | none => []
      | some i => (py_list_get shared_strings i).getD []
  else if cell.tAttr = some ("inlineStr".data) then
    (cell.tTexts.map (fun t => t.getD [])).flatten
  else
    match cell.vText with
    | some (some txt) => py_strip txt
    | _ => []

/-- The column letters of a cell:
`"".join(ch for ch in cell.attrib.get("r", "") if ch.isalpha())`. -/
def cell_col_letters (cell : CellElem) : Str :=
  (cell.rAttr.getD []).filter py_isalpha

/-- The inner loop of `extract_rows_from_workbook` over one row's cells:
threads the `values` dict (modelled by its final lookup function, which
is all the subsequent array fill reads) and `max_col`.  A cell whose
reference has no alphabetic characters is skipped (`continue`). -/
def scan_cells (shared_strings : List Str) :
    List CellElem → (Int → Option Str) → Int → ((Int → Option Str) × Int)
  | [], values, max_col => (values, max_col)
  | cell :: rest, values, max_col =>
    if cell_col_letters cell = [] then scan_cells shared_strings rest values max_col
    else
      scan_cells shared_strings rest
        (fun k => if k = _column_index (cell_col_letters cell)
                  then some (_extract_cell_value cell shared_strings) else values k)
        (max max_col (_column_index (cell_col_letters cell)))

/-- The per-row body of `extract_rows_from_workbook`: scan the cells;
when `max_col == 0` the row is skipped (`continue`), otherwise build
`row_values`, a list of `max_col` cells where position `col_idx - 1`
holds the value stored for `col_idx` and every unreferenced position is
`""`.  Every key in the dict lies in `[1, max_col]`, so the source's
in-place assignments produce exactly this list. -/
def process_row (shared_strings : List Str) (row : RowElem) : Option (List Str) :=
  if (scan_cells shared_strings row.cells (fun _ => none) 0).2 = 0 then none
  else some ((List.range (scan_cells shared_strings row.cells (fun _ => none) 0).2.toNat).map
    fun (i : Nat) => (((scan_cells shared_strings row.cells (fun _ => none) 0).1 ((i : Int) + 1)).getD []))

/-- The row loop of `extract_rows_from_workbook`: rows in document order,
skipped rows contributing nothing. -/
def extract_rows_from_sheet (shared_strings : List Str) : List RowElem → List (List Str)
  | [] => []
  | row :: rest =>
    match process_row shared_strings row with
    | none => extract_rows_from_sheet shared_strings rest
    | some values => values :: extract_rows_from_sheet shared_strings rest

/-- A row's scanned `max_col`, the length `process_row` sizes its output
array to. -/
def row_max_col (shared_strings : List Str) (row : RowElem) : Int :=
  (scan_cells shared_strings row.cells (fun _ => none) 0).2

/-!
## Worksheet XML writer (`_render_sheet_xml`)
-/

/-- The cell XML of `_render_sheet_xml`:
`<c r="{ref}" t="inlineStr"><is><t>{text}</t></is></c>` with the
reference `{_column_letter(c_idx)}{r_idx}` and the escaped value. -/
def render_cell_xml (r_idx c_idx : Nat) (value : Str) : Str :=
  "<c r=\"".data ++ _column_letter (c_idx : Int) ++ nat_repr r_idx
    ++ "\" t=\"inlineStr\"><is><t>".data ++ xml_escape value
    ++ "</t></is></c>".data

/-- One `<row r="{r_idx}">...</row>` element: cells are enumerated from 1
and a cell whose value is empty (`value in (None, "")`) is skipped. -/
def render_row_xml (r_idx : Nat) (row : List Str) : Str :=
  "<row r=\"".data ++ nat_repr r_idx ++ "\">".data
    ++ ((row.enumFrom 1).map fun p =>
          if p.2 = [] then [] else render_cell_xml r_idx p.1 p.2).flatten
    ++ "</row>".data

/-- Source `_render_sheet_xml(rows)`.  An empty grid is replaced by `[[""]]`.
`max_col` is the running maximum of every enumerated cell index, taken
before the empty-value `continue`, hence the maximum row length; it is
raised to 1 when still 0.  The dimension is
`A1:{_column_letter(max_col)}{len(rows)}`. -/
def _render_sheet_xml (rows0 : List (List Str)) : Str :=
  let rows := if rows0 = [] then [[([] : Str)]] else rows0
  let max_col :=
    rows.foldl (fun m row => (row.enumFrom 1).foldl (fun m2 p => max m2 p.1) m) 0
  let max_col := if max_col = 0 then 1 else max_col
  let dimension := "A1:".data ++ _column_letter (max_col : Int) ++ nat_repr rows.length
  let sheet_data := ((rows.enumFrom 1).map fun p => render_row_xml p.1 p.2).flatten
  "<?xml version=\"1.0\" encoding=\"UTF-8\" standalone=\"yes\"?>".data
    ++ "<worksheet xmlns=\"http://schemas.openxmlformats.org/spreadsheetml/2006/main\">".data
    ++ "<dimension ref=\"".data ++ dimension ++ "\" />".data
    ++ "<sheetViews><sheetView workbookViewId=\"0\">".data
    ++ "<selection activeCell=\"A1\" sqref=\"A1\" />".data
    ++ "</sheetView></sheetViews>".data
    ++ "<sheetFormatPr baseColWidth=\"8\" defaultRowHeight=\"15\" />".data
    ++ "<sheetData>".data ++ sheet_data ++ "</sheetData>".data
    ++ "<pageMargins left=\"0.75\" right=\"0.75\" top=\"1\" bottom=\"1\" header=\"0.5\" footer=\"0.5\" />".data
    ++ "</worksheet>".data

/-- The worksheet produced by `_render_sheet_xml`, at the XML element
level: the parsed form of the string the writer emits, row and cell for
row and cell (an inline-string cell's single `<t>` text node carries the
cell value, since parsing undoes `xml_escape`).  This is the input the
reader sees when decoding an encoded grid. -/
def writer_rows (grid : List (List Str)) : List RowElem :=
  let rows := if grid = [] then [[([] : Str)]] else grid
  (rows.enumFrom 1).map fun p =>
    { rowAttr := some (nat_repr p.1),
      cells := (p.2.enumFrom 1).filterMap fun q =>
        if q.2 = [] then none
        else some { rAttr := some (_column_letter (q.1 : Int) ++ nat_repr p.1),
                    tAttr := some ("inlineStr".data),
                    vText := none,
                    tTexts := [some q.2] } }

/-!
## Archive splice (`build_workbook_from_rows`)

A zip archive is an ordered list of members, each a name with its byte
content; `snapshot_template_bytes()` is the fixed template asset, here a
parameter. -/

/-- The fixed worksheet member path the splice replaces. -/
def sheet1_path : Str := "xl/worksheets/sheet1.xml".data

/-- Source `build_workbook_from_rows(rows)`: iterate the template's members in
order, replacing the member named `xl/worksheets/sheet1.xml` with the
UTF-8 encoding of the rendered sheet XML and copying every other member
unchanged. -/
def build_workbook_from_rows (rows : List (List Str))
    (template : List (Str × List Nat)) : List (Str × List Nat) :=
  template.map fun member =>
    if member.1 = sheet1_path then (member.1, utf8_encode (_render_sheet_xml rows))
    else member

/-!
## Sheet path resolver (`_resolve_first_sheet_path`)

The archive is modelled by its two parsed parts — `none` means the member
is missing, in which case `archive.read` raises `KeyError`, modelled as
`Except.error ()` — plus the names of its remaining members, which the
resolver never consults.
-/

structure SheetElem where
  relId : Option Str := none
deriving DecidableEq

structure Relationship where
  relIdAttr : Option Str := none
  target : Option Str := none
deriving DecidableEq

structure WorkbookPart where
  /-- `none`: no `<sheets>` node; `some l`: the `<sheet>` children. -/
  sheets : Option (List SheetElem) := none
deriving DecidableEq

structure XlsxArchive where
  workbook : Option WorkbookPart := none
  workbookRels : Option (List Relationship) := none
  otherMembers : List Str := []
deriving DecidableEq

/-- The conventional default path. -/
def default_sheet_path : Str := "xl/worksheets/sheet1.xml".data

/-- Source `_resolve_first_sheet_path(archive)`: read `xl/workbook.xml`
(raising when absent), then fall back to the default when the `<sheets>`
node, the first `<sheet>`, or a truthy `r:id` is missing; otherwise read
`xl/_rels/workbook.xml.rels` (raising when absent), return the default
when no relationship matches, and else normalize the matching target
(default attribute value `worksheets/sheet1.xml`, `lstrip("/")` when it
starts with `/`, prefix `xl/` unless already present). -/
def _resolve_first_sheet_path (archive : XlsxArchive) : Except Unit Str :=
  match archive.workbook with
  | none => Except.error ()
  | some workbook =>
    match workbook.sheets with
    | none => Except.ok default_sheet_path
    | some sheetList =>
      match sheetList.head? with
      | none => Except.ok default_sheet_path
      | some first_sheet =>
        match first_sheet.relId with
        | none => Except.ok default_sheet_path
        | some rel_id =>
          if rel_id = [] then Except.ok default_sheet_path
          else
            match archive.workbookRels with
            | none => Except.error ()
            | some rels =>
              match rels.find? (fun rel => rel.relIdAttr = some rel_id) with
              | none => Except.ok default_sheet_path
              | some rel =>
                let target := rel.target.getD ("worksheets/sheet1.xml".data)
                let target :=
                  if target.take 1 = ['/'] then target.dropWhile (fun c => c = '/')
                  else target
                let target :=
                  if target.take 3 = "xl/".data then target else "xl/".data ++ target
                Except.ok target

/-- The truthy relationship id of the first declared sheet, when the
workbook part is present and resolution reaches the relationship lookup;
`none` exactly when the resolver takes one of its early fallbacks (or the
workbook part is missing). -/
def first_rel_id (archive : XlsxArchive) : Option Str :=
  match archive.workbook with
  | some workbook =>
    match workbook.sheets with
    | some (first_sheet :: _) =>
      match first_sheet.relId with
      | some rel_id => if rel_id = [] then none else some rel_id
      | none => none
    | _ => none
  | none => none

/-!
## Lemmas: cell reference codec
-/

theorem toNat_ofNat_of_valid (n : Nat) (h : n < 55296) : (Char.ofNat n).toNat = n := by
  have hv : n.isValidChar := Or.inl h
  simp [Char.ofNat, hv]
  rfl

theorem py_upper_letter (r : Nat) (h : r < 26) :
    py_upper (Char.ofNat (65 + r)) = Char.ofNat (65 + r) := by
  have ht := toNat_ofNat_of_valid (65 + r) (by omega)
  have hcond : ¬(97 ≤ (Char.ofNat (65 + r)).toNat ∧ (Char.ofNat (65 + r)).toNat ≤ 122) := by
    omega
  simp [py_upper, hcond]

theorem step_letter (acc : Int) (r : Nat) (h : r < 26) :
    column_index_step acc (Char.ofNat (65 + r)) = acc * 26 + ((r : Int) + 1) := by
  have ht := toNat_ofNat_of_valid (65 + r) (by omega)
  have hcond : 65 ≤ (Char.ofNat (65 + r)).toNat ∧ (Char.ofNat (65 + r)).toNat ≤ 90 := by
    omega
  rw [column_index_step, if_pos hcond, ht]
  push_cast
  ring

theorem fold_column_letter_go (fuel : Nat) :
    ∀ n acc, n ≤ fuel →
      ((column_letter_go fuel n).map py_upper).foldl column_index_step acc
        = acc * 26 ^ (column_letter_go fuel n).length + (n : Int) := by
  induction fuel with
  | zero =>
    intro n acc hn
    interval_cases n
    simp [column_letter_go]
  | succ fuel ih =>
    intro n acc hn
    match n with
    | 0 => simp [column_letter_go]
    | m + 1 =>
      have hmod : m % 26 < 26 := Nat.mod_lt _ (by norm_num)
      have hdiv : m / 26 ≤ fuel :=
        le_trans (Nat.div_le_self m 26) (Nat.succ_le_succ_iff.mp hn)
      rw [show column_letter_go (fuel + 1) (m + 1)
            = column_letter_go fuel (m / 26) ++ [Char.ofNat (65 + m % 26)] from rfl]
      rw [List.map_append, List.foldl_append, ih (m / 26) acc hdiv]
      simp only [List.map_cons, List.map_nil, List.foldl_cons, List.foldl_nil,
        List.length_append, List.length_singleton]
      rw [py_upper_letter _ hmod, step_letter _ _ hmod]
      rw [pow_succ, ← mul_assoc]
      generalize acc * 26 ^ (column_letter_go fuel (m / 26)).length = X
      omega

theorem column_letter_go_ne_nil (fuel n : Nat) (h1 : 1 ≤ n) (h2 : n ≤ fuel) :
    column_letter_go fuel n ≠ [] := by
  match fuel, n with
  | _, 0 => omega
  | 0, _ + 1 => omega
  | fuel + 1, m + 1 => simp [column_letter_go]

theorem _column_letter_pos (n : Int) (h : 1 ≤ n) :
    _column_letter n = column_letter_go n.toNat n.toNat := by
  have h0 : (0 : Int) < n := h
  have hne : column_letter_go n.toNat n.toNat ≠ [] :=
    column_letter_go_ne_nil _ _ (by omega) le_rfl
  simp only [_column_letter, if_pos h0, if_neg hne]

theorem column_index_step_skip (acc : Int) (c : Char) (h : py_isalpha c = false) :
    column_index_step acc (py_upper c) = acc := by
  simp only [py_isalpha, Bool.or_eq_false_iff, Bool.and_eq_false_iff,
    decide_eq_false_iff_not, not_le] at h
  rw [py_upper, if_neg (by omega)]
  rw [column_index_step, if_neg (by omega)]

theorem fold_skip_nonalpha (s : Str) : ∀ acc : Int,
    (∀ c ∈ s, py_isalpha c = false) →
      (s.map py_upper).foldl column_index_step acc = acc := by
  induction s with
  | nil => intro acc _; rfl
  | cons c cs ih =>
    intro acc h
    simp only [List.map_cons, List.foldl_cons]
    rw [column_index_step_skip acc c (h c (by simp))]
    exact ih acc (fun d hd => h d (by simp [hd]))

theorem fold_filter_alpha (s : Str) : ∀ acc : Int,
    ((s.filter py_isalpha).map py_upper).foldl column_index_step acc
      = (s.map py_upper).foldl column_index_step acc := by
  induction s with
  | nil => intro acc; rfl
  | cons c cs ih =>
    intro acc
    cases hpc : py_isalpha c with
    | true =>
      simp only [List.filter_cons, hpc, if_pos, List.map_cons, List.foldl_cons]
      exact ih _
    | false =>
      simp only [List.filter_cons, hpc, Bool.false_eq_true, if_false,
        List.map_cons, List.foldl_cons]
      rw [column_index_step_skip acc c hpc]
      exact ih acc

/-- C5: for every integer `n` in `[1, 16384]`, parsing the column
letters produced for `n` yields `n` back:
`_column_index (_column_letter n) = n`, `_column_letter` being the
bijective base-26 rendering with digits 1..26 mapped to A..Z. -/
theorem column_codec_roundtrip (n : Int) (h1 : 1 ≤ n) (h2 : n ≤ 16384) :
    _column_index (_column_letter n) = n := by
  rw [_column_letter_pos n h1, _column_index,
    fold_column_letter_go n.toNat n.toNat 0 le_rfl]
  have hcast : ((n.toNat : Nat) : Int) = n := Int.toNat_of_nonneg (by omega)
  rw [hcast, zero_mul, zero_add]
  omega

/-- Witness for C5 at the top of the claimed range: column 16384. -/
theorem column_codec_roundtrip_witness :
    (1 : Int) ≤ 16384 ∧ _column_index (_column_letter 16384) = 16384 :=
  ⟨by norm_num, column_codec_roundtrip 16384 (by norm_num) (by norm_num)⟩

/-- C8: the column codec clamps at minimum 1: `_column_letter` of any
index `<= 0` is the letters of column 1 (never empty), `_column_index`
of a string with no alphabetic character is 1, and non-alphabetic
characters are ignored in mixed inputs. -/
theorem column_codec_clamp :
    (∀ i : Int, i ≤ 0 → _column_letter i = _column_letter 1 ∧ _column_letter i ≠ [])
    ∧ (∀ s : Str, (∀ c ∈ s, py_isalpha c = false) → _column_index s = 1)
    ∧ (∀ s : Str, _column_index (s.filter py_isalpha) = _column_index s) := by
  refine ⟨fun i hi => ?_, fun s hs => ?_, fun s => ?_⟩
  · have h0 : ¬(0 : Int) < i := by omega
    simp [_column_letter, if_neg h0]
    decide
  · rw [_column_index, fold_skip_nonalpha s 0 hs]
    rfl
  · rw [_column_index, _column_index, fold_filter_alpha s 0]

/-- Witness for C8: a negative index, an all-punctuation string, and a
mixed cell reference. -/
theorem column_codec_clamp_witness :
    (_column_letter (-5) = _column_letter 1 ∧ _column_letter (-5) ≠ [])
    ∧ _column_index ("?!".data) = 1
    ∧ _column_index (("B12".data).filter py_isalpha) = _column_index ("B12".data) :=
  ⟨column_codec_clamp.1 (-5) (by norm_num),
   column_codec_clamp.2.1 ("?!".data) (by decide),
   column_codec_clamp.2.2 ("B12".data)⟩

/-!
## Lemmas: row scanning
-/

theorem one_le_column_index (s : Str) : 1 ≤ _column_index s :=
  le_max_right _ _

theorem scan_cells_max_ge (shared : List Str) :
    ∀ cells values mc, mc ≤ (scan_cells shared cells values mc).2 := by
  intro cells
  induction cells with
  | nil => intro v mc; exact le_rfl
  | cons c cs ih =>
    intro v mc
    rw [scan_cells]
    split
    · exact ih _ _
    · exact le_trans (le_max_left _ _) (ih _ _)

theorem scan_cells_of_all_nil (shared : List Str) :
    ∀ cells values mc, (∀ c ∈ cells, cell_col_letters c = []) →
      scan_cells shared cells values mc = (values, mc) := by
  intro cells
  induction cells with
  | nil => intro v mc _; rfl
  | cons c cs ih =>
    intro v mc h
    rw [scan_cells, if_pos (h c (by simp))]
    exact ih _ _ (fun d hd => h d (by simp [hd]))

theorem scan_cells_pos (shared : List Str) :
    ∀ cells values mc, (∃ c ∈ cells, cell_col_letters c ≠ []) →
      1 ≤ (scan_cells shared cells values mc).2 := by
  intro cells
  induction cells with
  | nil => rintro v mc ⟨c, hc, _⟩; simp at hc
  | cons c cs ih =>
    rintro v mc ⟨d, hd, hne⟩
    rcases List.mem_cons.mp hd with rfl | hd2
    · rw [scan_cells, if_neg hne]
      refine le_trans ?_ (scan_cells_max_ge shared cs _ _)
      exact le_trans (one_le_column_index _) (le_max_right _ _)
    · rw [scan_cells]
      split
      · exact ih _ _ ⟨d, hd2, hne⟩
      · exact ih _ _ ⟨d, hd2, hne⟩

theorem process_row_eq_none_iff (shared : List Str) (row : RowElem) :
    process_row shared row = none ↔ ∀ c ∈ row.cells, cell_col_letters c = [] := by
  constructor
  · intro h
    by_contra hc
    push_neg at hc
    have h1 : 1 ≤ (scan_cells shared row.cells (fun _ => none) 0).2 :=
      scan_cells_pos shared row.cells _ 0 hc
    rw [process_row, if_neg (by omega)] at h
    exact Option.some_ne_none _ h
  · intro h
    have := scan_cells_of_all_nil shared row.cells (fun _ => none) 0 h
    rw [process_row, this]
    rfl

theorem process_row_ignores_row_attr (shared : List Str) (a : Option Str) (row : RowElem) :
    process_row shared { row with rowAttr := a } = process_row shared row := by
  cases row
  rfl

theorem extract_rows_eq_filterMap (shared : List Str) (rows : List RowElem) :
    extract_rows_from_sheet shared rows = rows.filterMap (process_row shared) := by
  induction rows with
  | nil => rfl
  | cons r rs ih =>
    rw [extract_rows_from_sheet, List.filterMap_cons]
    cases h : process_row shared r <;> simp [h, ih]

/-- C6: decode emits output rows in document order, one per row element
that has at least one cell with a resolvable column reference; declared
row-number attributes are irrelevant (no gap filling), and a row element
with zero resolvable cells is dropped entirely. -/
theorem decode_row_order (shared : List Str) (rows : List RowElem) :
    extract_rows_from_sheet shared rows
      = (rows.filter fun r => r.cells.any fun c => !(cell_col_letters c).isEmpty).map
          (fun r => (process_row shared r).getD [])
    ∧ (∀ r : RowElem, process_row shared r = none ↔ ∀ c ∈ r.cells, cell_col_letters c = [])
    ∧ (∀ a : Option Str, ∀ r : RowElem,
        process_row shared { r with rowAttr := a } = process_row shared r) := by
  refine ⟨?_, process_row_eq_none_iff shared, process_row_ignores_row_attr shared⟩
  induction rows with
  | nil => rfl
  | cons r rs ih =>
    rw [extract_rows_from_sheet, List.filter_cons]
    cases h : process_row shared r with
    | none =>
      have hall : ∀ c ∈ r.cells, cell_col_letters c = [] :=
        (process_row_eq_none_iff shared r).mp h
      have hpred : (r.cells.any fun c => !(cell_col_letters c).isEmpty) = false := by
        simp only [List.any_eq_false]
        intro c hc
        simp [hall c hc]
      rw [hpred]
      simpa using ih
    | some vs =>
      have hpred : (r.cells.any fun c => !(cell_col_letters c).isEmpty) = true := by
        by_contra hfalse
        have hall : ∀ c ∈ r.cells, cell_col_letters c = [] := by
          simp only [Bool.not_eq_true, List.any_eq_false] at hfalse
          intro c hc
          have := hfalse c hc
          simpa using this
        rw [(process_row_eq_none_iff shared r).mpr hall] at h
        exact Option.noConfusion h
      rw [hpred]
      simp only [if_true, List.map_cons, h, Option.getD_some]
      exact congrArg _ ih

/-- Witness for C6: a two-row sheet whose second row element (declared
row number 9) has no resolvable cell and is dropped. -/
theorem decode_row_order_witness :
    extract_rows_from_sheet []
        [⟨some ['1'], [⟨some ("A1".data), some ("inlineStr".data), none, [some ['x']]⟩]⟩,
         ⟨some ['9'], [⟨some ("123".data), none, some (some ['7']), []⟩]⟩]
      = [[['x']]]
    ∧ process_row [] ⟨some ['9'], [⟨some ("123".data), none, some (some ['7']), []⟩]⟩ = none := by
  have h := decode_row_order []
      [⟨some ['1'], [⟨some ("A1".data), some ("inlineStr".data), none, [some ['x']]⟩]⟩,
       ⟨some ['9'], [⟨some ("123".data), none, some (some ['7']), []⟩]⟩]
  refine ⟨?_, (h.2.1 _).mpr (by decide)⟩
  rw [h.1]
  decide

/-!
## C1: decode rectangularization
-/

/-- C1 counterexample: encoding the grid `[["a","b"],["c"]]` and
decoding the resulting worksheet yields `[["a","b"],["c"]]`: the short
row is NOT padded to the grid-wide maximum row length, refuting the
claimed result `[["a","b"],["c",""]]`. -/
theorem decode_no_global_padding_cex :
    extract_rows_from_sheet [] (writer_rows [["a".data, "b".data], ["c".data]])
      = [["a".data, "b".data], ["c".data]]
    ∧ extract_rows_from_sheet [] (writer_rows [["a".data, "b".data], ["c".data]])
      ≠ [["a".data, "b".data], ["c".data, []]] := by
  decide

/-- C1 (amended): decode rectangularizes each output row to that row's
OWN maximum resolved column index — not to the maximum row length seen
across the whole grid — so rows of the decoded grid may have different
lengths; in particular decoding the encoded `[["a","b"],["c"]]` returns
`[["a","b"],["c"]]` unchanged. -/
theorem decode_pads_to_row_own_max (shared : List Str) (row : RowElem) (vs : List Str)
    (h : process_row shared row = some vs) :
    (vs.length : Int) = row_max_col shared row
    ∧ extract_rows_from_sheet [] (writer_rows [["a".data, "b".data], ["c".data]])
        = [["a".data, "b".data], ["c".data]] := by
  refine ⟨?_, by decide⟩
  by_cases h0 : (scan_cells shared row.cells (fun _ => none) 0).2 = 0
  · rw [process_row, if_pos h0] at h
    exact Option.noConfusion h
  · rw [process_row, if_neg h0] at h
    have hvs := Option.some.inj h
    have hnonneg : (0 : Int) ≤ (scan_cells shared row.cells (fun _ => none) 0).2 :=
      scan_cells_max_ge shared row.cells _ 0
    rw [← hvs, List.length_map, List.length_range, row_max_col]
    exact Int.toNat_of_nonneg hnonneg

/-- Witness for C1's amended theorem: a row whose single cell sits in
column C gets length 3. -/
theorem decode_pads_to_row_own_max_witness :
    ((([] : Str) :: [] ++ [[], "z".data]).length : Int)
      = row_max_col [] ⟨none, [⟨some ("C1".data), some ("inlineStr".data), none, [some ("z".data)]⟩]⟩
    ∧ extract_rows_from_sheet [] (writer_rows [["a".data, "b".data], ["c".data]])
        = [["a".data, "b".data], ["c".data]] :=
  decode_pads_to_row_own_max []
    ⟨none, [⟨some ("C1".data), some ("inlineStr".data), none, [some ("z".data)]⟩]⟩
    (([] : Str) :: [] ++ [[], "z".data]) (by decide)

/-!
## C3: shared-string index lookup
-/

theorem py_list_get_out_of_range (l : List Str) (i : Int)
    (h : (l.length : Int) ≤ i ∨ i < -(l.length : Int)) : py_list_get l i = none := by
  rcases h with h | h
  · rw [py_list_get, if_pos (by omega)]
    exact List.getElem?_eq_none (by omega)
  · rw [py_list_get, if_neg (by omega), if_neg (by omega)]

theorem py_list_get_neg_in_range (l : List Str) (i : Int)
    (h0 : i < 0) (h1 : -(l.length : Int) ≤ i) :
    py_list_get l i = l[l.length - i.natAbs]? := by
  rw [py_list_get, if_neg (by omega), if_pos (by omega)]

/-- C3 counterexample: a type-"s" cell whose value is the integer `-1`
— outside the claimed range `[0, len)` of the one-entry table `["x"]` —
decodes to `"x"` (Python's negative indexing reads the last entry), not
to the empty string. -/
theorem shared_string_negative_index_cex :
    _extract_cell_value ⟨none, some ['s'], some (some ("-1".data)), []⟩ ["x".data]
      = "x".data
    ∧ "x".data ≠ ([] : Str)
    ∧ ¬(0 ≤ (-1 : Int) ∧ (-1 : Int) < (([("x".data)] : List Str).length : Int)) := by
  decide

/-- C3 (amended): for a type-"s" cell, a value that does not parse as an
integer, or an integer `i` with `i >= len` or `i < -len`, produces the
empty string without aborting; but a negative `i` with `-len <= i < 0`
resolves Python-style to entry `len - |i|`, not to the empty string. -/
theorem shared_string_index_semantics (cell : CellElem) (shared : List Str) (txt : Str)
    (ht : cell.tAttr = some ['s']) (hv : cell.vText = some (some txt)) :
    (py_int_of_string txt = none → _extract_cell_value cell shared = [])
    ∧ ∀ i : Int, py_int_of_string txt = some i →
        ((((shared.length : Int) ≤ i ∨ i < -(shared.length : Int)) →
            _extract_cell_value cell shared = [])
         ∧ (0 ≤ i → i < (shared.length : Int) →
            _extract_cell_value cell shared = (shared[i.toNat]?).getD [])
         ∧ (i < 0 → -(shared.length : Int) ≤ i →
            _extract_cell_value cell shared = (shared[shared.length - i.natAbs]?).getD [])) := by
  have hbase : _extract_cell_value cell shared
      = (match py_int_of_string txt with
         | none => []
         | some i => (py_list_get shared i).getD []) := by
    rw [_extract_cell_value, if_pos ht, hv]
  constructor
  · intro hp
    rw [hbase, hp]
  · intro i hp
    rw [hbase, hp]
    refine ⟨fun h => ?_, fun h0 h1 => ?_, fun h0 h1 => ?_⟩
    · show (py_list_get shared i).getD [] = []
      rw [py_list_get_out_of_range shared i h]
      rfl
    · show (py_list_get shared i).getD [] = (shared[i.toNat]?).getD []
      rw [py_list_get, if_pos h0]
    · show (py_list_get shared i).getD [] = (shared[shared.length - i.natAbs]?).getD []
      rw [py_list_get_neg_in_range shared i h0 h1]

/-- Witness for C3's amended theorem: index 9 into a one-entry table
yields the empty string. -/
theorem shared_string_index_semantics_witness :
    _extract_cell_value ⟨none, some ['s'], some (some ("9".data)), []⟩ ["x".data] = [] :=
  ((shared_string_index_semantics ⟨none, some ['s'], some (some ("9".data)), []⟩
      ["x".data] ("9".data) rfl rfl).2 9 (by decide)).1 (Or.inl (by decide))

/-!
## C4: raw cell values are stripped
-/

theorem py_strip_decomp (s : Str) :
    ∃ pre suf : Str, pre.all py_isspace ∧ suf.all py_isspace
      ∧ s = pre ++ py_strip s ++ suf := by
  refine ⟨s.takeWhile py_isspace,
    ((s.dropWhile py_isspace).reverse.takeWhile py_isspace).reverse,
    List.all_eq_true.mpr (fun c hc => List.mem_takeWhile_imp hc),
    by
      rw [List.all_reverse]
      exact List.all_eq_true.mpr (fun c hc => List.mem_takeWhile_imp hc),
    ?_⟩
  have hmid : s.dropWhile py_isspace = py_strip s
      ++ ((s.dropWhile py_isspace).reverse.takeWhile py_isspace).reverse := by
    rw [py_strip]
    calc s.dropWhile py_isspace
        = ((s.dropWhile py_isspace).reverse).reverse := (List.reverse_reverse _).symm
      _ = ((s.dropWhile py_isspace).reverse.takeWhile py_isspace
            ++ (s.dropWhile py_isspace).reverse.dropWhile py_isspace).reverse := by
            rw [List.takeWhile_append_dropWhile]
      _ = ((s.dropWhile py_isspace).reverse.dropWhile py_isspace).reverse
            ++ ((s.dropWhile py_isspace).reverse.takeWhile py_isspace).reverse := by
            rw [List.reverse_append]
  conv_lhs => rw [← List.takeWhile_append_dropWhile py_isspace s, hmid]
  rw [List.append_assoc]

/-- C4 counterexample: a cell with no type attribute whose `<v>` text is
`" 42 "` decodes to `"42"`: the source applies `.strip()`, so the
literal XML text is NOT preserved verbatim. -/
theorem raw_cell_whitespace_cex :
    _extract_cell_value ⟨none, none, some (some (" 42 ".data)), []⟩ [] = "42".data
    ∧ _extract_cell_value ⟨none, none, some (some (" 42 ".data)), []⟩ [] ≠ " 42 ".data := by
  decide

/-- C4 (amended): for a cell whose type is absent or neither "s" nor
"inlineStr", decode returns the raw text of the value node with leading
and trailing whitespace stripped (`str.strip()`), and otherwise
unaltered: the result is an infix of the raw text flanked only by
whitespace. -/
theorem raw_cell_value_strips (cell : CellElem) (shared : List Str)
    (h1 : cell.tAttr ≠ some ['s']) (h2 : cell.tAttr ≠ some ("inlineStr".data)) :
    _extract_cell_value cell shared
      = (match cell.vText with
         | some (some txt) => py_strip txt
         | _ => [])
    ∧ ∀ txt, cell.vText = some (some txt) →
        ∃ pre suf : Str, pre.all py_isspace ∧ suf.all py_isspace
          ∧ txt = pre ++ _extract_cell_value cell shared ++ suf := by
  have hbase : _extract_cell_value cell shared
      = (match cell.vText with
         | some (some txt) => py_strip txt
         | _ => []) := by
    rw [_extract_cell_value, if_neg h1, if_neg h2]
  refine ⟨hbase, fun txt hv => ?_⟩
  rw [hbase, hv]
  exact py_strip_decomp txt

/-- Witness for C4's amended theorem at the raw text `" 7 "`. -/
theorem raw_cell_value_strips_witness :
    ∃ pre suf : Str, pre.all py_isspace ∧ suf.all py_isspace
      ∧ " 7 ".data
        = pre ++ _extract_cell_value ⟨none, none, some (some (" 7 ".data)), []⟩ [] ++ suf :=
  (raw_cell_value_strips ⟨none, none, some (some (" 7 ".data)), []⟩ []
    (by decide) (by decide)).2 (" 7 ".data) rfl

/-!
## C9: encoding the empty grid
-/

set_option maxRecDepth 8000 in
/-- C9: encoding the empty grid does not fail and renders worksheet XML
whose dimension reference is exactly `A1:A1` and whose `sheetData` holds
exactly one row element with no cell elements (the writer substitutes
`[[""]]` and the single empty value is skipped). -/
theorem render_empty_grid :
    _render_sheet_xml []
      = ("<?xml version=\"1.0\" encoding=\"UTF-8\" standalone=\"yes\"?><worksheet xmlns=\"http://schemas.openxmlformats.org/spreadsheetml/2006/main\"><dimension ref=\"A1:A1\" /><sheetViews><sheetView workbookViewId=\"0\"><selection activeCell=\"A1\" sqref=\"A1\" /></sheetView></sheetViews><sheetFormatPr baseColWidth=\"8\" defaultRowHeight=\"15\" /><sheetData><row r=\"1\"></row></sheetData><pageMargins left=\"0.75\" right=\"0.75\" top=\"1\" bottom=\"1\" header=\"0.5\" footer=\"0.5\" /></worksheet>").data
    ∧ writer_rows [] = [{ rowAttr := some ['1'], cells := [] }] := by
  constructor
  · decide
  · rfl

/-!
## C7 and C10: archive splice
-/

/-- C7: the spliced package has exactly the template's member names in
the template's order; every member other than the worksheet part is
copied unchanged, and the worksheet part's content is replaced by the
UTF-8 encoded rendered sheet. -/
theorem splice_preserves_members (rows : List (List Str)) (template : List (Str × List Nat)) :
    (build_workbook_from_rows rows template).map Prod.fst = template.map Prod.fst
    ∧ ∀ i, i < template.length →
        ((template.getD i ([], [])).1 ≠ sheet1_path →
           (build_workbook_from_rows rows template).getD i ([], [])
             = template.getD i ([], []))
        ∧ ((template.getD i ([], [])).1 = sheet1_path →
           (build_workbook_from_rows rows template).getD i ([], [])
             = (sheet1_path, utf8_encode (_render_sheet_xml rows))) := by
  constructor
  · rw [build_workbook_from_rows, List.map_map]
    apply List.map_congr_left
    intro e _
    by_cases he : e.1 = sheet1_path
    · simp [he]
    · simp [he]
  · intro i hi
    have he : template[i]? = some template[i] := List.getElem?_eq_getElem hi
    rw [build_workbook_from_rows, List.getD_eq_getElem?_getD, List.getD_eq_getElem?_getD,
      List.getElem?_map, he]
    constructor
    · intro hne
      simp only [Option.getD_some] at hne ⊢
      simp [hne]
    · intro heq
      simp only [Option.getD_some] at heq ⊢
      simp [heq]

/-- Witness for C7 with a two-member template. -/
theorem splice_preserves_members_witness :
    (build_workbook_from_rows [] [(sheet1_path, [1, 2]), ("docProps/app.xml".data, [7])]).getD 1 ([], [])
      = ("docProps/app.xml".data, [7])
    ∧ (build_workbook_from_rows [] [(sheet1_path, [1, 2]), ("docProps/app.xml".data, [7])]).getD 0 ([], [])
      = (sheet1_path, utf8_encode (_render_sheet_xml [])) :=
  ⟨((splice_preserves_members [] [(sheet1_path, [1, 2]), ("docProps/app.xml".data, [7])]).2
      1 (by decide)).1 (by decide),
   ((splice_preserves_members [] [(sheet1_path, [1, 2]), ("docProps/app.xml".data, [7])]).2
      0 (by decide)).2 (by decide)⟩

/-- C10: the splice target is the fixed member path
`xl/worksheets/sheet1.xml`, independent of the template's workbook
declarations: any member of the output at that path carries the UTF-8
encoded rendered sheet XML, membership of every other-named member is
exactly that of the template, and when the template has the path the
output has it with the rendered content. -/
theorem splice_fixed_target (rows : List (List Str)) (template : List (Str × List Nat)) :
    (∀ content, (sheet1_path, content) ∈ build_workbook_from_rows rows template →
        content = utf8_encode (_render_sheet_xml rows))
    ∧ (∀ name content, name ≠ sheet1_path →
        ((name, content) ∈ build_workbook_from_rows rows template
          ↔ (name, content) ∈ template))
    ∧ (∀ content0, (sheet1_path, content0) ∈ template →
        (sheet1_path, utf8_encode (_render_sheet_xml rows))
          ∈ build_workbook_from_rows rows template) := by
  refine ⟨?_, ?_, ?_⟩
  · intro content hmem
    rw [build_workbook_from_rows] at hmem
    obtain ⟨e, hin, hfe⟩ := List.mem_map.mp hmem
    by_cases he : e.1 = sheet1_path
    · rw [if_pos he] at hfe
      have := congrArg Prod.snd hfe
      simpa using this.symm
    · rw [if_neg he] at hfe
      exact absurd (congrArg Prod.fst hfe) he
  · intro name content hne
    rw [build_workbook_from_rows]
    constructor
    · intro hmem
      obtain ⟨e, hin, hfe⟩ := List.mem_map.mp hmem
      by_cases he : e.1 = sheet1_path
      · rw [if_pos he] at hfe
        have hfst : e.1 = name := congrArg Prod.fst hfe
        exact absurd (hfst.symm.trans he) hne
      · rw [if_neg he] at hfe
        exact hfe ▸ hin
    · intro hmem
      refine List.mem_map.mpr ⟨(name, content), hmem, ?_⟩
      rw [if_neg hne]
  · intro c0 h0
    exact List.mem_map.mpr ⟨(sheet1_path, c0), h0, by rw [if_pos rfl]⟩

/-- Witness for C10 with a two-member template. -/
theorem splice_fixed_target_witness :
    ("xl/styles.xml".data, [3])
        ∈ build_workbook_from_rows [] [(sheet1_path, []), ("xl/styles.xml".data, [3])]
    ∧ (sheet1_path, utf8_encode (_render_sheet_xml []))
        ∈ build_workbook_from_rows [] [(sheet1_path, []), ("xl/styles.xml".data, [3])] :=
  ⟨((splice_fixed_target [] [(sheet1_path, []), ("xl/styles.xml".data, [3])]).2.1
      ("xl/styles.xml".data) [3] (by decide)).mpr (by decide),
   (splice_fixed_target [] [(sheet1_path, []), ("xl/styles.xml".data, [3])]).2.2
      [] (by decide)⟩

/-!
## C2: sheet path resolver
-/

/-- C2 counterexample: two archives that contain the worksheet member
`xl/worksheets/sheet1.xml` on which the resolver raises `KeyError`
instead of returning the default path: one without `xl/workbook.xml`,
and one whose first sheet carries a relationship id but whose
`xl/_rels/workbook.xml.rels` member is absent. -/
theorem resolver_keyerror_cex :
    default_sheet_path ∈ ([default_sheet_path] : List Str)
    ∧ _resolve_first_sheet_path ⟨none, none, [default_sheet_path]⟩ = Except.error ()
    ∧ _resolve_first_sheet_path
        ⟨some ⟨some [⟨some ("rId1".data)⟩]⟩, none, [default_sheet_path]⟩
      = Except.error () := by
  refine ⟨by decide, rfl, rfl⟩

theorem resolver_isOk_iff (a : XlsxArchive) :
    (_resolve_first_sheet_path a).isOk
      ↔ (a.workbook.isSome ∧ ((first_rel_id a).isSome → a.workbookRels.isSome)) := by
  obtain ⟨wb, rels, mem⟩ := a
  cases wb with
  | none => simp [_resolve_first_sheet_path, first_rel_id, Except.isOk, Except.toBool]
  | some wbp =>
    obtain ⟨sheets⟩ := wbp
    cases sheets with
    | none => simp [_resolve_first_sheet_path, first_rel_id, Except.isOk, Except.toBool]
    | some slist =>
      cases slist with
      | nil => simp [_resolve_first_sheet_path, first_rel_id, Except.isOk, Except.toBool]
      | cons s rest =>
        obtain ⟨rid0⟩ := s
        cases rid0 with
        | none => simp [_resolve_first_sheet_path, first_rel_id, Except.isOk, Except.toBool]
        | some rid =>
          by_cases hrid : rid = []
          · simp [_resolve_first_sheet_path, first_rel_id, Except.isOk, Except.toBool, hrid]
          · cases rels with
            | none =>
              simp [_resolve_first_sheet_path, first_rel_id, Except.isOk, Except.toBool, hrid]
            | some rlist =>
              cases hfind : rlist.find? (fun rel => rel.relIdAttr = some rid) with
              | none =>
                simp [_resolve_first_sheet_path, first_rel_id, Except.isOk, Except.toBool,
                  hrid, hfind]
              | some rel =>
                simp [_resolve_first_sheet_path, first_rel_id, Except.isOk, Except.toBool,
                  hrid, hfind]

theorem resolver_early_fallback (a : XlsxArchive) (wb : WorkbookPart)
    (hwb : a.workbook = some wb) (hfirst : first_rel_id a = none) :
    _resolve_first_sheet_path a = Except.ok default_sheet_path := by
  obtain ⟨wbo, rels, mem⟩ := a
  cases wbo with
  | none => exact Option.noConfusion hwb
  | some wbp =>
    obtain ⟨sheets⟩ := wbp
    cases sheets with
    | none => rfl
    | some slist =>
      cases slist with
      | nil => rfl
      | cons s rest =>
        obtain ⟨rid0⟩ := s
        cases rid0 with
        | none => rfl
        | some rid =>
          by_cases hrid : rid = []
          · rw [_resolve_first_sheet_path]
            simp [hrid]
          · simp [first_rel_id, hrid] at hfirst

theorem resolver_no_match_fallback (a : XlsxArchive) (rid : Str) (rels : List Relationship)
    (hfirst : first_rel_id a = some rid) (hrels : a.workbookRels = some rels)
    (hfind : rels.find? (fun rel => rel.relIdAttr = some rid) = none) :
    _resolve_first_sheet_path a = Except.ok default_sheet_path := by
  obtain ⟨wbo, rels0, mem⟩ := a
  cases wbo with
  | none => exact Option.noConfusion hfirst
  | some wbp =>
    obtain ⟨sheets⟩ := wbp
    cases sheets with
    | none => exact Option.noConfusion hfirst
    | some slist =>
      cases slist with
      | nil => exact Option.noConfusion hfirst
      | cons s rest =>
        obtain ⟨rid0⟩ := s
        cases rid0 with
        | none => exact Option.noConfusion hfirst
        | some rid1 =>
          by_cases hrid : rid1 = []
          · simp [first_rel_id, hrid] at hfirst
          · simp only [first_rel_id, if_neg hrid, Option.some.injEq] at hfirst
            cases hrels
            subst hfirst
            rw [_resolve_first_sheet_path]
            simp [hrid, hfind]

/-- C2 (amended): the resolver returns the default path for the
non-raising failure steps — no sheets node, no sheet element, no truthy
relationship id, or no matching relationship in a present relationships
part — but it raises (`KeyError`) exactly when the workbook part is
absent, or when a relationship lookup is required and the relationships
part is absent. -/
theorem resolver_fallback_semantics (a : XlsxArchive) :
    ((_resolve_first_sheet_path a).isOk
      ↔ (a.workbook.isSome ∧ ((first_rel_id a).isSome → a.workbookRels.isSome)))
    ∧ (∀ wb, a.workbook = some wb → first_rel_id a = none →
        _resolve_first_sheet_path a = Except.ok default_sheet_path)
    ∧ (∀ rid rels, first_rel_id a = some rid → a.workbookRels = some rels →
        rels.find? (fun rel => rel.relIdAttr = some rid) = none →
        _resolve_first_sheet_path a = Except.ok default_sheet_path) :=
  ⟨resolver_isOk_iff a,
   fun wb hwb hfirst => resolver_early_fallback a wb hwb hfirst,
   fun rid rels hfirst hrels hfind => resolver_no_match_fallback a rid rels hfirst hrels hfind⟩

/-- Witness for C2's amended theorem: an archive with a workbook part
but no sheets node, and one whose declared relationship id matches no
relationship. -/
theorem resolver_fallback_semantics_witness :
    _resolve_first_sheet_path ⟨some ⟨none⟩, none, []⟩ = Except.ok default_sheet_path
    ∧ _resolve_first_sheet_path
        ⟨some ⟨some [⟨some ("rId9".data)⟩]⟩, some [⟨some ("rId1".data), none⟩], []⟩
      = Except.ok default_sheet_path :=
  ⟨(resolver_fallback_semantics ⟨some ⟨none⟩, none, []⟩).2.1 ⟨none⟩ rfl (by decide),
   (resolver_fallback_semantics
      ⟨some ⟨some [⟨some ("rId9".data)⟩]⟩, some [⟨some ("rId1".data), none⟩], []⟩).2.2
      ("rId9".data) [⟨some ("rId1".data), none⟩] (by decide) rfl (by decide)⟩

end Xlsx
